import Mathlib

/-!
Verification development for the `webcolor` library (src/webcolor.js), an
8-bit sRGB color value object with parsing, WCAG contrast computations and
an iterative contrast-search loop.

Modelling conventions:
* JavaScript numbers are modelled exactly.  The string-processing /
  parsing / stringification layer only ever performs exact rational
  arithmetic, so it is embedded computably over `ℚ`; a JavaScript number
  that may be `NaN` (the result of `parseInt`/`parseFloat` on a
  non-numeric string) is modelled as `Option ℚ` with `none` playing the
  role of `NaN`.
* The color-metric layer (`getLuminance` uses `x ** 2.4`, `shadeBlend`
  uses `** 0.5`) is embedded over `ℝ` (the idealised semantics of the
  floating-point program), using `Real.rpow` and `Real.sqrt`; these
  definitions are necessarily noncomputable.
* `stringInputToObject`, the named-color table, `toString`, `equals` are
  translated line by line from src/webcolor.js, including JavaScript
  quirks (`ToInt32` coercion of `NaN` to `0` under bitwise operators,
  `Math.round` rounding half-up, maximal-prefix `parseInt`).
-/

/-- JavaScript number restricted to the exact-arithmetic fragment:
`none` models `NaN`, `some q` a (rational-valued) number. -/
abbrev JSNum := Option ℚ

/-- Characters treated as whitespace by `String.prototype.trim` (the
ASCII whitespace characters plus no-break space; the remaining exotic
Unicode space characters never occur in the inputs considered here). -/
def jsWhitespaceChar (c : Char) : Bool :=
  c == ' ' || c == '\t' || c == '\n' || c == '\r' || c == '\x0b' || c == '\x0c' || c == ' '

/-- JavaScript `String.prototype.trim`. -/
def jsTrim (s : String) : String :=
  ⟨((s.data.dropWhile jsWhitespaceChar).reverse.dropWhile jsWhitespaceChar).reverse⟩

/-- JavaScript `String.prototype.toLowerCase` (ASCII range; the inputs
considered contain no characters with exotic case mappings). -/
def jsToLower (s : String) : String :=
  ⟨s.data.map Char.toLower⟩

/-- JavaScript `String.prototype.split(',')` on the character list of a
string: splitting on every comma, keeping empty fragments, and yielding
one fragment even for the empty string. -/
def splitComma : List Char → List (List Char)
  | [] => [[]]
  | c :: cs =>
    match splitComma cs with
    | [] => [[]]
    | h :: t => if c = ',' then [] :: h :: t else (c :: h) :: t

/-- Value of a decimal digit character, `none` for a non-digit. -/
def decDigitVal (c : Char) : Option Nat :=
  if '0' ≤ c ∧ c ≤ '9' then some (c.toNat - '0'.toNat) else none

/-- Value of a hexadecimal digit character, `none` for a non-digit. -/
def hexDigitVal (c : Char) : Option Nat :=
  if '0' ≤ c ∧ c ≤ '9' then some (c.toNat - '0'.toNat)
  else if 'a' ≤ c ∧ c ≤ 'f' then some (c.toNat - 'a'.toNat + 10)
  else if 'A' ≤ c ∧ c ≤ 'F' then some (c.toNat - 'A'.toNat + 10)
  else none

/-- Accumulate the maximal leading run of digits (per `dv`) into a value. -/
def parseDigitsAux (dv : Char → Option Nat) (base : Nat) (acc : Nat) : List Char → Nat
  | [] => acc
  | c :: cs =>
    match dv c with
    | some d => parseDigitsAux dv base (acc * base + d) cs
    | none => acc

/-- Length of the maximal leading run of decimal digits. -/
def countDecDigits : List Char → Nat
  | [] => 0
  | c :: cs => if (decDigitVal c).isSome then countDecDigits cs + 1 else 0

/-- JavaScript `parseInt(s [, radix])` in the two call shapes the source
uses: no radix argument (`none`) and radix 16 (`some 16`).  Leading
whitespace and an optional sign are consumed; a `0x`/`0X` prefix is
honoured when the radix is 16 or unspecified — it is stripped, and with
an unspecified radix it additionally selects base 16 (otherwise the base
defaults to 10); the value is the maximal leading run of digits, `NaN`
(`none`) when that run is empty. -/
def jsParseInt (radix : Option Nat) (l : List Char) : Option ℤ :=
  let l1 := l.dropWhile jsWhitespaceChar
  let sign : ℤ := if l1.head? = some '-' then -1 else 1
  let l2 := if l1.head? = some '-' ∨ l1.head? = some '+' then l1.tail else l1
  let hex0x := l2.head? = some '0' ∧ (l2.tail.head? = some 'x' ∨ l2.tail.head? = some 'X')
  let useHex := radix = some 16 ∨ hex0x
  let l3 := if hex0x then l2.tail.tail else l2
  let dv := if useHex then hexDigitVal else decDigitVal
  let base := if useHex then 16 else 10
  match l3 with
  | [] => none
  | c :: _ =>
    match dv c with
    | none => none
    | some _ => some (sign * (parseDigitsAux dv base 0 l3 : ℤ))

/-- Value of the optional exponent part of a JavaScript float literal
(`e`/`E`, optional sign, digits); `0` when no well-formed exponent starts
here (in which case the characters are not part of the parsed prefix and
do not influence the value). -/
def jsFloatExp (l : List Char) : ℤ :=
  match l with
  | 'e' :: rest | 'E' :: rest =>
    let (sign, r2) : ℤ × List Char := match rest with
      | '-' :: r => (-1, r)
      | '+' :: r => (1, r)
      | r => (1, r)
    let n := countDecDigits r2
    if n = 0 then 0 else sign * (parseDigitsAux decDigitVal 10 0 (r2.take n) : ℤ)
  | _ => 0

/-- JavaScript `parseFloat(s)`: skip leading whitespace, optional sign,
then the maximal leading decimal literal `digits [. digits] [exp]` or
`. digits [exp]`; `NaN` (`none`) when no digit is found.  (`Infinity`
literals are not modelled; they never occur in the inputs considered.) -/
def jsParseFloat (l : List Char) : Option ℚ :=
  let l1 := l.dropWhile jsWhitespaceChar
  let sign : ℚ := match l1 with
    | '-' :: _ => -1
    | _ => 1
  let l2 : List Char := match l1 with
    | '-' :: rest => rest
    | '+' :: rest => rest
    | _ => l1
  let n1 := countDecDigits l2
  let ipVal : ℚ := (parseDigitsAux decDigitVal 10 0 (l2.take n1) : ℤ)
  let rest1 := l2.drop n1
  match rest1 with
  | '.' :: r2 =>
    let n2 := countDecDigits r2
    if n1 = 0 ∧ n2 = 0 then none
    else
      let frVal : ℚ := (parseDigitsAux decDigitVal 10 0 (r2.take n2) : ℤ)
      let e := jsFloatExp (r2.drop n2)
      some (sign * (ipVal + frVal / (10 : ℚ) ^ n2) * (10 : ℚ) ^ e)
  | _ =>
    if n1 = 0 then none
    else some (sign * ipVal * (10 : ℚ) ^ jsFloatExp rest1)

/-- JavaScript `ToInt32` on an integer value. -/
def toInt32 (v : ℤ) : ℤ :=
  (v + 2147483648) % 4294967296 - 2147483648

/-- JavaScript `ToInt32` where the operand may be `NaN` (`NaN` coerces
to `0` under the bitwise operators). -/
def jsToInt32 (v : Option ℤ) : ℤ :=
  toInt32 (v.getD 0)

/-- JavaScript `v >> k` (signed/arithmetic shift on the `ToInt32` image). -/
def jsShr (v : Option ℤ) (k : Nat) : ℤ :=
  (jsToInt32 v).fdiv (2 ^ k)

/-- JavaScript `v & 255` (low byte of the two's-complement image). -/
def jsAnd255 (v : ℤ) : ℤ :=
  v % 256

/-- JavaScript `Math.round`: nearest integer, halves toward `+∞`. -/
def jsRound (q : ℚ) : ℤ :=
  ⌊q + 1 / 2⌋

/-- The object produced by `stringInputToObject`: an `{r, g, b, a}`
record whose components are JavaScript numbers (possibly `NaN`). -/
structure RGBAObj where
  r : JSNum
  g : JSNum
  b : JSNum
  a : JSNum
deriving DecidableEq

/-- The named-color table `names` of src/webcolor.js (CSS Color Level 3
keywords), as an association list in source order. -/
def namesList : List (String × String) := [
  ("aliceblue", "f0f8ff"),
  ("antiquewhite", "faebd7"),
  ("aqua", "0ff"),
  ("aquamarine", "7fffd4"),
  ("azure", "f0ffff"),
  ("beige", "f5f5dc"),
  ("bisque", "ffe4c4"),
  ("black", "000"),
  ("blanchedalmond", "ffebcd"),
  ("blue", "00f"),
  ("blueviolet", "8a2be2"),
  ("brown", "a52a2a"),
  ("burlywood", "deb887"),
  ("burntsienna", "ea7e5d"),
  ("cadetblue", "5f9ea0"),
  ("chartreuse", "7fff00"),
  ("chocolate", "d2691e"),
  ("coral", "ff7f50"),
  ("cornflowerblue", "6495ed"),
  ("cornsilk", "fff8dc"),
  ("crimson", "dc143c"),
  ("cyan", "0ff"),
  ("darkblue", "00008b"),
  ("darkcyan", "008b8b"),
  ("darkgoldenrod", "b8860b"),
  ("darkgray", "a9a9a9"),
  ("darkgreen", "006400"),
  ("darkgrey", "a9a9a9"),
  ("darkkhaki", "bdb76b"),
  ("darkmagenta", "8b008b"),
  ("darkolivegreen", "556b2f"),
  ("darkorange", "ff8c00"),
  ("darkorchid", "9932cc"),
  ("darkred", "8b0000"),
  ("darksalmon", "e9967a"),
  ("darkseagreen", "8fbc8f"),
  ("darkslateblue", "483d8b"),
  ("darkslategray", "2f4f4f"),
  ("darkslategrey", "2f4f4f"),
  ("darkturquoise", "00ced1"),
  ("darkviolet", "9400d3"),
  ("deeppink", "ff1493"),
  ("deepskyblue", "00bfff"),
  ("dimgray", "696969"),
  ("dimgrey", "696969"),
  ("dodgerblue", "1e90ff"),
  ("firebrick", "b22222"),
  ("floralwhite", "fffaf0"),
  ("forestgreen", "228b22"),
  ("fuchsia", "f0f"),
  ("gainsboro", "dcdcdc"),
  ("ghostwhite", "f8f8ff"),
  ("gold", "ffd700"),
  ("goldenrod", "daa520"),
  ("gray", "808080"),
  ("green", "008000"),
  ("greenyellow", "adff2f"),
  ("grey", "808080"),
  ("honeydew", "f0fff0"),
  ("hotpink", "ff69b4"),
  ("indianred", "cd5c5c"),
  ("indigo", "4b0082"),
  ("ivory", "fffff0"),
  ("khaki", "f0e68c"),
  ("lavender", "e6e6fa"),
  ("lavenderblush", "fff0f5"),
  ("lawngreen", "7cfc00"),
  ("lemonchiffon", "fffacd"),
  ("lightblue", "add8e6"),
  ("lightcoral", "f08080"),
  ("lightcyan", "e0ffff"),
  ("lightgoldenrodyellow", "fafad2"),
  ("lightgray", "d3d3d3"),
  ("lightgreen", "90ee90"),
  ("lightgrey", "d3d3d3"),
  ("lightpink", "ffb6c1"),
  ("lightsalmon", "ffa07a"),
  ("lightseagreen", "20b2aa"),
  ("lightskyblue", "87cefa"),
  ("lightslategray", "789"),
  ("lightslategrey", "789"),
  ("lightsteelblue", "b0c4de"),
  ("lightyellow", "ffffe0"),
  ("lime", "0f0"),
  ("limegreen", "32cd32"),
  ("linen", "faf0e6"),
  ("magenta", "f0f"),
  ("maroon", "800000"),
  ("mediumaquamarine", "66cdaa"),
  ("mediumblue", "0000cd"),
  ("mediumorchid", "ba55d3"),
  ("mediumpurple", "9370db"),
  ("mediumseagreen", "3cb371"),
  ("mediumslateblue", "7b68ee"),
  ("mediumspringgreen", "00fa9a"),
  ("mediumturquoise", "48d1cc"),
  ("mediumvioletred", "c71585"),
  ("midnightblue", "191970"),
  ("mintcream", "f5fffa"),
  ("mistyrose", "ffe4e1"),
  ("moccasin", "ffe4b5"),
  ("navajowhite", "ffdead"),
  ("navy", "000080"),
  ("oldlace", "fdf5e6"),
  ("olive", "808000"),
  ("olivedrab", "6b8e23"),
  ("orange", "ffa500"),
  ("orangered", "ff4500"),
  ("orchid", "da70d6"),
  ("palegoldenrod", "eee8aa"),
  ("palegreen", "98fb98"),
  ("paleturquoise", "afeeee"),
  ("palevioletred", "db7093"),
  ("papayawhip", "ffefd5"),
  ("peachpuff", "ffdab9"),
  ("peru", "cd853f"),
  ("pink", "ffc0cb"),
  ("plum", "dda0dd"),
  ("powderblue", "b0e0e6"),
  ("purple", "800080"),
  ("rebeccapurple", "663399"),
  ("red", "f00"),
  ("rosybrown", "bc8f8f"),
  ("royalblue", "4169e1"),
  ("saddlebrown", "8b4513"),
  ("salmon", "fa8072"),
  ("sandybrown", "f4a460"),
  ("seagreen", "2e8b57"),
  ("seashell", "fff5ee"),
  ("sienna", "a0522d"),
  ("silver", "c0c0c0"),
  ("skyblue", "87ceeb"),
  ("slateblue", "6a5acd"),
  ("slategray", "708090"),
  ("slategrey", "708090"),
  ("snow", "fffafa"),
  ("springgreen", "00ff7f"),
  ("steelblue", "4682b4"),
  ("tan", "d2b48c"),
  ("teal", "008080"),
  ("thistle", "d8bfd8"),
  ("tomato", "ff6347"),
  ("turquoise", "40e0d0"),
  ("violet", "ee82ee"),
  ("wheat", "f5deb3"),
  ("white", "fff"),
  ("whitesmoke", "f5f5f5"),
  ("yellow", "ff0"),
  ("yellowgreen", "9acd32")]

/-- Duplicate an (optionally present) character, for the 3/4-digit hex
shorthand expansion `s[k] + s[k]`. -/
def dupChar : Option Char → List Char
  | some c => [c, c]
  | none => []

/-- Body of `stringInputToObject` after the trim/lowercase/keyword
normalisation: the `s[0]` check, the comma path for strings longer than
9 characters, and the hex path. -/
def afterNames (s : List Char) : Option RGBAObj :=
  if s.head? ≠ some 'r' ∧ s.head? ≠ some '#' then none
  else
    let n := s.length
    if n > 9 then
      let parts := splitComma s
      let np := parts.length
      if np < 3 ∨ np > 4 then none
      else
        match parts with
        | rr :: gg :: bb :: rest =>
          some { r := (jsParseInt none (if rr.get? 3 = some 'a' then rr.drop 5 else rr.drop 4)).map (fun z => (z : ℚ))
                 g := (jsParseInt none gg).map (fun z => (z : ℚ))
                 b := (jsParseInt none bb).map (fun z => (z : ℚ))
                 a := match rest.head? with
                      | some aa => jsParseFloat aa
                      | none => some 1 }
        | _ => none
    else
      if n = 8 ∨ n = 6 ∨ n < 4 then none
      else
        let s' := if n < 6 then
            '#' :: (dupChar (s.get? 1) ++ dupChar (s.get? 2) ++ dupChar (s.get? 3) ++
              (if n > 4 then dupChar (s.get? 4) else []))
          else s
        let v := jsParseInt (some 16) (s'.drop 1)
        if n = 9 ∨ n = 5 then
          some { r := some ((jsAnd255 (jsShr v 24) : ℚ))
                 g := some ((jsAnd255 (jsShr v 16) : ℚ))
                 b := some ((jsAnd255 (jsShr v 8) : ℚ))
                 a := some (((jsRound ((jsAnd255 (jsToInt32 v) : ℚ) / 0.255) : ℚ)) / 1000) }
        else
          some { r := some ((jsShr v 16 : ℚ))
                 g := some ((jsAnd255 (jsShr v 8) : ℚ))
                 b := some ((jsAnd255 (jsToInt32 v) : ℚ))
                 a := some 1 }

/-- Body of `stringInputToObject` on the already trimmed-and-lowercased
string: look it up in the named-color table (substituting
`'#' + names[s]` on a hit), return the transparent record for
`"transparent"`, then parse the hex or `rgb(a)` grammar. -/
def stringCore (s1 : String) : Option RGBAObj :=
  match namesList.lookup s1 with
  | some hex => afterNames ('#' :: hex.data)
  | none =>
    if s1 = "transparent" then some ⟨some 0, some 0, some 0, some 0⟩
    else afterNames s1.data

/-- `stringInputToObject` of src/webcolor.js: trim and lowercase, look the
result up in the named-color table (substituting `'#' + names[s]` on a
hit), return the transparent record for `"transparent"`, then parse the
hex or `rgb(a)` grammar; `none` models the `null` returns. -/
def stringInputToObject (s0 : String) : Option RGBAObj :=
  stringCore (jsToLower (jsTrim s0))

/-- The color record held by a `webcolor` instance, on the exact/rational
layer (string parsing and stringification); prototype defaults
`r = g = b = 0`, `a = 1`. -/
structure QColor where
  r : JSNum := some 0
  g : JSNum := some 0
  b : JSNum := some 0
  a : JSNum := some 1
deriving DecidableEq

/-- Successful-construction projection of `webcolorNew`: the instance
produced from a string whose parse succeeds, and `none` when
`stringInputToObject` returns `null` — in which case the constructor
itself does not return a value but throws (see `webcolorNew`). -/
def webcolorOfString (s : String) : Option QColor :=
  (stringInputToObject s).map (fun o => ⟨o.r, o.g, o.b, o.a⟩)

/-- Decimal rendering of a natural number, as JavaScript prints it. -/
def natToDec (n : Nat) : String :=
  ⟨Nat.toDigits 10 n⟩

/-- Decimal rendering of an integer, as JavaScript prints it. -/
def intToDec (v : ℤ) : String :=
  if v < 0 then "-" ++ natToDec v.natAbs else natToDec v.toNat

/-- Rendering of a rounded (`Math.round`) JavaScript number, `"NaN"`
included. -/
def renderJSInt (v : Option ℤ) : String :=
  match v with
  | none => "NaN"
  | some v => intToDec v

/-- JavaScript `v.toString(16)` (lowercase hexadecimal), `"NaN"` included. -/
def jsToString16 (v : Option ℤ) : String :=
  match v with
  | none => "NaN"
  | some v => if v < 0 then "-" ++ ⟨Nat.toDigits 16 v.natAbs⟩ else (⟨Nat.toDigits 16 v.toNat⟩ : String)

/-- JavaScript `s.slice(1)` on a string. -/
def jsSlice1 (s : String) : String :=
  ⟨s.data.drop 1⟩

/-- JavaScript `s.slice(1, -2)` on a string. -/
def jsSlice1Neg2 (s : String) : String :=
  let l := s.data.drop 1
  ⟨l.take (l.length - 2)⟩

/-- `Math.round` lifted to a possibly-`NaN` number. -/
def jsRoundN (v : JSNum) : Option ℤ :=
  v.map jsRound

/-- Decimal rendering of the value `k / 1000` of a nonnegative integer
`k`, as JavaScript prints that number (integer when divisible by 1000,
otherwise a fraction with trailing zeros omitted). -/
def renderThousandthsNat (q : Nat) : String :=
  let ip := q / 1000
  let fr := q % 1000
  if fr = 0 then natToDec ip
  else
    let padded := (if fr < 10 then "00" else if fr < 100 then "0" else "") ++ natToDec fr
    natToDec ip ++ "." ++ (⟨(padded.data.reverse.dropWhile (· = '0')).reverse⟩ : String)

/-- Decimal rendering of `k / 1000` for an integer `k`. -/
def renderThousandths (k : ℤ) : String :=
  if k < 0 then "-" ++ renderThousandthsNat k.natAbs else renderThousandthsNat k.toNat

/-- Rendering of `round(a * 1000) / 1000`, the alpha component in the
`rgba(...)` output format. -/
def renderAlphaThousandths (a : JSNum) : String :=
  match a.map (fun q => jsRound (q * 1000)) with
  | none => "NaN"
  | some k => renderThousandths k

/-- `webcolor.prototype.toString(format)`: `"hex"` renders the combined
big-endian integer in base 16 (dropping the leading overflow digit, and
the two alpha digits when `a === 1`); the `"rgb"`/default branch renders
`rgb(r,g,b)` or `rgba(r,g,b,a)` with channels rounded and alpha rounded
to 3 decimal places. -/
def QColor.toString (c : QColor) (format : String := "rgb") : String :=
  let a1 : Bool := c.a == some 1
  if format = "hex" then
    let big : Option ℤ := do
      let r ← jsRoundN c.r
      let g ← jsRoundN c.g
      let b ← jsRoundN c.b
      let al ← if a1 then some 0 else jsRoundN (c.a.map (· * 255))
      pure (4294967296 + r * 16777216 + g * 65536 + b * 256 + al)
    "#" ++ (if a1 then jsSlice1Neg2 (jsToString16 big) else jsSlice1 (jsToString16 big))
  else
    if a1 then
      "rgb(" ++ renderJSInt (jsRoundN c.r) ++ "," ++ renderJSInt (jsRoundN c.g) ++ "," ++
        renderJSInt (jsRoundN c.b) ++ ")"
    else
      "rgba(" ++ renderJSInt (jsRoundN c.r) ++ "," ++ renderJSInt (jsRoundN c.g) ++ "," ++
        renderJSInt (jsRoundN c.b) ++ "," ++ renderAlphaThousandths c.a ++ ")"

/-- `webcolor.prototype.equals`: equality of the canonical default-format
string renderings. -/
def QColor.equals (c0 c1 : QColor) : Bool :=
  c0.toString == c1.toString

/-- Canonical 6-digit form of a table entry: 3-digit entries are expanded
by doubling each digit. -/
def expand6 (v : String) : String :=
  if v.length = 3 then
    match v.data with
    | [d1, d2, d3] => (⟨[d1, d1, d2, d2, d3, d3]⟩ : String)
    | _ => v
  else v

open scoped Classical

/-- The color record held by a `webcolor` instance, on the real-number
layer used for the metric and shading operations (`getLuminance` and the
default `shadeBlend` involve irrational powers); prototype defaults
`r = g = b = 0`, `a = 1`. -/
structure webcolor where
  r : ℝ
  g : ℝ
  b : ℝ
  a : ℝ := 1

/-- The record produced by `webcolor('#000000')`. -/
def hexBlack : webcolor := ⟨0, 0, 0, 1⟩

/-- The record produced by `webcolor('#ffffff')`. -/
def hexWhite : webcolor := ⟨255, 255, 255, 1⟩

/-- `getBrightness()`: `(r * 299 + g * 587 + b * 114) / 1000`, alpha
ignored (the memoisation cache is invisible in a pure embedding). -/
noncomputable def webcolor.getBrightness (c : webcolor) : ℝ :=
  (c.r * 299 + c.g * 587 + c.b * 114) / 1000

/-- `isDark()`: brightness strictly below 128. -/
def webcolor.isDark (c : webcolor) : Prop :=
  c.getBrightness < 128

/-- `isWhite()` as written in the source: all three channels equal 0. -/
def webcolor.isWhite (c : webcolor) : Prop :=
  c.r = 0 ∧ c.g = 0 ∧ c.b = 0

/-- `isBlack()` as written in the source: all three channels equal 255. -/
def webcolor.isBlack (c : webcolor) : Prop :=
  c.r = 255 ∧ c.g = 255 ∧ c.b = 255

/-- Per-channel sRGB transfer step of `getLuminance`: linear segment
below the 0.03928 threshold, gamma segment `((x + 0.055) / 1.055) ^ 2.4`
above it. -/
noncomputable def srgbTransfer (x : ℝ) : ℝ :=
  if x ≤ 0.03928 then x / 12.92 else ((x + 0.055) / 1.055) ^ (2.4 : ℝ)

/-- `getLuminance()`: WCAG relative luminance of the normalised channels,
alpha ignored. -/
noncomputable def webcolor.getLuminance (c : webcolor) : ℝ :=
  0.2126 * srgbTransfer (c.r / 255) + 0.7152 * srgbTransfer (c.g / 255) +
    0.0722 * srgbTransfer (c.b / 255)

/-- `contrastRatio(c1)`: the WCAG formula
`(max(l0, l1) + 0.05) / (min(l0, l1) + 0.05)` on the two relative
luminances. -/
noncomputable def webcolor.contrastRatio (c0 c1 : webcolor) : ℝ :=
  (max c0.getLuminance c1.getLuminance + 0.05) /
    (min c0.getLuminance c1.getLuminance + 0.05)

/-- `withAlpha(a)`: values in `(1, 100]` are first divided by 100; the
result is a copy with the new alpha when it lands in `[0, 1]`, `null`
(`none`) otherwise. -/
noncomputable def webcolor.withAlpha (c : webcolor) (a : ℝ) : Option webcolor :=
  let a' := if a > 1 ∧ a ≤ 100 then a / 100 else a
  if a' ≥ 0 ∧ a' ≤ 1 then some ⟨c.r, c.g, c.b, a'⟩ else none

/-- `invert()`: channel-wise `255 - x`, alpha unchanged. -/
def webcolor.invert (c : webcolor) : webcolor :=
  ⟨255 - c.r, 255 - c.g, 255 - c.b, c.a⟩

/-- `shadeBlend(p, c1, l)`: `null` for `p` outside `[-1, 1]`; otherwise
blend toward `c1` (default black for negative `p`, white for positive)
with weights `P = 1 - |p|` and `|p|`, linearly when `l` is set and
through squared channels (`(P·x² + |p|·t²) ** 0.5`, i.e. a square root)
by default; alpha blends linearly unless one side is negative, in which
case the other side wins, defaulting to 1. -/
noncomputable def webcolor.shadeBlend (c : webcolor) (p : ℝ)
    (c1 : Option webcolor := none) (l : Bool := false) : Option webcolor :=
  if p < -1 ∨ p > 1 then none
  else
    let neg : Prop := p < 0
    let t : webcolor := c1.getD (if neg then ⟨0, 0, 0, 1⟩ else ⟨255, 255, 255, 1⟩)
    let p' : ℝ := if neg then p * -1 else p
    let P : ℝ := 1 - p'
    let fr : ℝ := if l then P * c.r + p' * t.r else Real.sqrt (P * c.r ^ 2 + p' * t.r ^ 2)
    let fg : ℝ := if l then P * c.g + p' * t.g else Real.sqrt (P * c.g ^ 2 + p' * t.g ^ 2)
    let fb : ℝ := if l then P * c.b + p' * t.b else Real.sqrt (P * c.b ^ 2 + p' * t.b ^ 2)
    let fa : ℝ :=
      if c.a ≥ 0 ∨ t.a ≥ 0 then
        (if c.a < 0 then t.a else if t.a < 0 then c.a else c.a * P + t.a * p')
      else 1
    some ⟨fr, fg, fb, fa⟩

/-- The shade-direction choice `sd` computed in each iteration of the
with-target branch of `contrastingColor`: `-1` to darken, `1` to
lighten. -/
noncomputable def shadeDirection (base t : webcolor) (cmin : ℝ) : ℝ :=
  if t.getLuminance = base.getLuminance then
    (if base.isDark then 1 else -1)
  else if t.getLuminance < base.getLuminance then
    (if base.contrastRatio hexBlack > cmin then -1 else 1)
  else
    (if base.contrastRatio hexWhite > cmin then 1 else -1)

/-- The `while` loop of the with-target branch of `contrastingColor`,
with an explicit fuel argument: `some` is a normal exit of the source
loop (contrast reached, or the candidate became pure black/white after a
step), `none` means the loop is still running after `fuel` iterations.
The `shadeBlend` call always succeeds because `0.2 * sd ∈ {-0.2, 0.2}`;
`getD t` merely extracts it. -/
noncomputable def contrastingColorLoop (base : webcolor) (cmin : ℝ) :
    ℕ → webcolor → Option webcolor
  | 0, _ => none
  | Nat.succ fuel, t =>
    if base.contrastRatio t < cmin then
      let t' := (t.shadeBlend (0.2 * shadeDirection base t cmin) none false).getD t
      if t'.isBlack ∨ t'.isWhite then some t'
      else contrastingColorLoop base cmin fuel t'
    else some t

/-- Loop termination predicate: some fuel suffices for the source loop
to exit. -/
def contrastingColorLoopTerminates (base : webcolor) (cmin : ℝ) (t : webcolor) : Prop :=
  ∃ fuel result, contrastingColorLoop base cmin fuel t = some result

/-- The no-target branch of `contrastingColor`: pure white for dark
receivers, pure black otherwise. -/
noncomputable def contrastingColorNoTarget (base : webcolor) : webcolor :=
  if base.isDark then ⟨255, 255, 255, 1⟩ else ⟨0, 0, 0, 1⟩

/-- Modelled from the spec: the dual-scale alpha normalisation that the
`withAlpha` claim describes (percentage inputs in `(1, 100]` divided by
100). -/
noncomputable def scaleAlpha (a : ℝ) : ℝ :=
  if 1 < a ∧ a ≤ 100 then a / 100 else a

/-- Modelled from the spec: the shade-direction policy exactly as claim
C2 words it (`tl < l`: darken further unless the base's contrast against
pure black already exceeds `minRatio`, in which case lighten; `tl > l`
symmetric with pure white; `tl == l`: lighten iff the base is dark). -/
noncomputable def claimedShadeDirection (base t : webcolor) (cmin : ℝ) : ℝ :=
  if t.getLuminance = base.getLuminance then
    (if base.isDark then 1 else -1)
  else if t.getLuminance < base.getLuminance then
    (if base.contrastRatio hexBlack > cmin then 1 else -1)
  else
    (if base.contrastRatio hexWhite > cmin then -1 else 1)

/-- In-range color record: channels in `[0, 255]`, alpha in `[0, 1]`. -/
def inRange (c : webcolor) : Prop :=
  0 ≤ c.r ∧ c.r ≤ 255 ∧ 0 ≤ c.g ∧ c.g ≤ 255 ∧ 0 ≤ c.b ∧ c.b ≤ 255 ∧ 0 ≤ c.a ∧ c.a ≤ 1

/-! Helper lemmas for the parser layer. -/

theorem lookup_eq_none_of_no_key (l : List (String × String)) (t : String)
    (h : ∀ p ∈ l, p.1 ≠ t) : l.lookup t = none := by
  induction l with
  | nil => rfl
  | cons p l ih =>
    have hp : t ≠ p.1 := (h p (List.mem_cons_self p l)).symm
    have hb : (t == p.1) = false := beq_eq_false_iff_ne.mpr hp
    simp only [List.lookup, hb]
    exact ih (fun q hq => h q (List.mem_cons_of_mem p hq))

set_option maxRecDepth 4000 in
theorem namesList_no_hash : ∀ p ∈ namesList, p.1.data.head? ≠ some '#' := by
  decide

theorem lookup_none_of_head_hash (t : String) (h : t.data.head? = some '#') :
    namesList.lookup t = none := by
  refine lookup_eq_none_of_no_key _ _ (fun p hp hpt => ?_)
  exact namesList_no_hash p hp (hpt ▸ h)

/-- Value of a list of hexadecimal digit characters, as accumulated by
the parser's digit loop. -/
def hexVal (l : List Char) : Nat :=
  parseDigitsAux hexDigitVal 16 0 l

/-- Modelled from the spec: rounding a number to 3 decimal places, the
operation claim C5 describes for the alpha byte. -/
def round3 (q : ℚ) : ℚ :=
  ((jsRound (q * 1000) : ℤ) : ℚ) / 1000

theorem hexDigitVal_lt (c : Char) (v : Nat) (h : hexDigitVal c = some v) : v < 16 := by
  unfold hexDigitVal at h
  split_ifs at h with h1 h2 h3 <;> injection h with h
  · have hb : c.toNat ≤ 57 := h1.2
    have h0 : '0'.toNat = 48 := rfl
    omega
  · have hb : c.toNat ≤ 102 := h2.2
    have h0 : 'a'.toNat = 97 := rfl
    omega
  · have hb : c.toNat ≤ 70 := h3.2
    have h0 : 'A'.toNat = 65 := rfl
    omega

theorem hexDigit_ne (c : Char) (h : (hexDigitVal c).isSome) :
    jsWhitespaceChar c = false ∧ c ≠ '-' ∧ c ≠ '+' ∧ c ≠ 'x' ∧ c ≠ 'X' := by
  have hval : ('0' ≤ c ∧ c ≤ '9') ∨ ('a' ≤ c ∧ c ≤ 'f') ∨ ('A' ≤ c ∧ c ≤ 'F') := by
    unfold hexDigitVal at h
    split_ifs at h with h1 h2 h3
    · exact Or.inl h1
    · exact Or.inr (Or.inl h2)
    · exact Or.inr (Or.inr h3)
    · simp at h
  have hne : ∀ b : Char, ¬('0' ≤ b ∧ b ≤ '9') → ¬('a' ≤ b ∧ b ≤ 'f') →
      ¬('A' ≤ b ∧ b ≤ 'F') → c ≠ b := by
    intro b hb1 hb2 hb3 he
    subst he
    rcases hval with h | h | h
    exacts [hb1 h, hb2 h, hb3 h]
  refine ⟨?_, hne '-' (by decide) (by decide) (by decide),
    hne '+' (by decide) (by decide) (by decide),
    hne 'x' (by decide) (by decide) (by decide),
    hne 'X' (by decide) (by decide) (by decide)⟩
  unfold jsWhitespaceChar
  have hs := hne ' ' (by decide) (by decide) (by decide)
  have ht := hne '\t' (by decide) (by decide) (by decide)
  have hn := hne '\n' (by decide) (by decide) (by decide)
  have hr := hne '\r' (by decide) (by decide) (by decide)
  have hvt := hne '\x0b' (by decide) (by decide) (by decide)
  have hf := hne '\x0c' (by decide) (by decide) (by decide)
  have hb := hne '\u00A0' (by decide) (by decide) (by decide)
  simp only [Bool.or_eq_false_iff, beq_eq_false_iff_ne, ne_eq]
  exact ⟨⟨⟨⟨⟨⟨hs, ht⟩, hn⟩, hr⟩, hvt⟩, hf⟩, hb⟩

theorem parseDigitsAux_hex_lt : ∀ (l : List Char) (acc : Nat),
    parseDigitsAux hexDigitVal 16 acc l < (acc + 1) * 16 ^ l.length := by
  intro l
  induction l with
  | nil =>
    intro acc
    simp [parseDigitsAux]
  | cons c cs ih =>
    intro acc
    simp only [parseDigitsAux, List.length_cons]
    cases hdc : hexDigitVal c with
    | none =>
      calc acc < acc + 1 := Nat.lt_succ_self acc
        _ ≤ (acc + 1) * 16 ^ (cs.length + 1) :=
          Nat.le_mul_of_pos_right _ (Nat.pos_pow_of_pos _ (by norm_num))
    | some d =>
      have hd := hexDigitVal_lt c d hdc
      have h2 := ih (acc * 16 + d)
      have h3 : (acc * 16 + d + 1) * 16 ^ cs.length ≤ (acc + 1) * 16 ^ (cs.length + 1) := by
        rw [pow_succ]
        have hstep : acc * 16 + d + 1 ≤ (acc + 1) * 16 := by omega
        calc (acc * 16 + d + 1) * 16 ^ cs.length ≤ (acc + 1) * 16 * 16 ^ cs.length :=
          Nat.mul_le_mul_right _ hstep
          _ = (acc + 1) * (16 ^ cs.length * 16) := by ring
      exact lt_of_lt_of_le h2 h3

theorem jsParseInt16_of_hex (l : List Char) (hne : l ≠ [])
    (hall : ∀ c ∈ l, (hexDigitVal c).isSome) :
    jsParseInt (some 16) l = some ((hexVal l : ℕ) : ℤ) := by
  obtain ⟨c, cs, rfl⟩ : ∃ c cs, l = c :: cs := by
    cases l with
    | nil => exact absurd rfl hne
    | cons c cs => exact ⟨c, cs, rfl⟩
  have hc := hall c (List.mem_cons_self c cs)
  obtain ⟨hws, hmn, hpl, hx, hX⟩ := hexDigit_ne c hc
  obtain ⟨v, hv⟩ := Option.isSome_iff_exists.mp hc
  have hnox : ¬((c :: cs).head? = some '0' ∧
      ((c :: cs).tail.head? = some 'x' ∨ (c :: cs).tail.head? = some 'X')) := by
    rintro ⟨-, hx2⟩
    cases cs with
    | nil => simp at hx2
    | cons c2 cs2 =>
      obtain ⟨-, -, -, hx2', hX2'⟩ := hexDigit_ne c2 (hall c2 (by simp))
      simp only [List.tail_cons, List.head?_cons, Option.some.injEq] at hx2
      rcases hx2 with h | h
      exacts [hx2' h, hX2' h]
  have hsgn : ¬(c = '-' ∨ c = '+') := by
    rintro (h | h)
    exacts [hmn h, hpl h]
  simp only [jsParseInt, List.dropWhile_cons, hws, Bool.false_eq_true, if_false,
    List.head?_cons, Option.some.injEq]
  rw [if_neg hmn, if_neg hsgn, if_neg hnox]
  simp [hv, hexVal]

theorem jsShr16_small (v : Nat) (_h : v < 16777216) :
    jsShr (some (v : ℤ)) 16 = ((v / 65536 : ℕ) : ℤ) := by
  unfold jsShr jsToInt32 toInt32
  simp only [Option.getD_some]
  rw [Int.fdiv_eq_ediv _ (by norm_num)]
  norm_num
  omega

theorem jsAnd255_toInt32 (v : Nat) (_h : v < 4294967296) :
    jsAnd255 (jsToInt32 (some (v : ℤ))) = ((v % 256 : ℕ) : ℤ) := by
  unfold jsAnd255 jsToInt32 toInt32
  simp only [Option.getD_some]
  omega

theorem jsAnd255_shr8 (v : Nat) (_h : v < 4294967296) :
    jsAnd255 (jsShr (some (v : ℤ)) 8) = ((v / 256 % 256 : ℕ) : ℤ) := by
  unfold jsAnd255 jsShr jsToInt32 toInt32
  simp only [Option.getD_some]
  rw [Int.fdiv_eq_ediv _ (by norm_num)]
  norm_num
  omega

theorem jsAnd255_shr16 (v : Nat) (_h : v < 4294967296) :
    jsAnd255 (jsShr (some (v : ℤ)) 16) = ((v / 65536 % 256 : ℕ) : ℤ) := by
  unfold jsAnd255 jsShr jsToInt32 toInt32
  simp only [Option.getD_some]
  rw [Int.fdiv_eq_ediv _ (by norm_num)]
  norm_num
  omega

theorem jsAnd255_shr24 (v : Nat) (_h : v < 4294967296) :
    jsAnd255 (jsShr (some (v : ℤ)) 24) = ((v / 16777216 % 256 : ℕ) : ℤ) := by
  unfold jsAnd255 jsShr jsToInt32 toInt32
  simp only [Option.getD_some]
  rw [Int.fdiv_eq_ediv _ (by norm_num)]
  norm_num
  omega


theorem expand_shorthand3 (c1 c2 c3 : Char) :
    afterNames ['#', c1, c2, c3] = afterNames ['#', c1, c1, c2, c2, c3, c3] := by
  unfold afterNames
  norm_num [List.get?, dupChar]

theorem expand_shorthand4 (c1 c2 c3 c4 : Char) :
    afterNames ['#', c1, c2, c3, c4] =
      afterNames ['#', c1, c1, c2, c2, c3, c3, c4, c4] := by
  unfold afterNames
  norm_num [List.get?, dupChar]

theorem afterNames_hex6 (l : List Char) (hl : l.length = 6)
    (hall : ∀ c ∈ l, (hexDigitVal c).isSome) :
    afterNames ('#' :: l) =
      some ⟨some ((hexVal l / 65536 : ℕ) : ℚ), some ((hexVal l / 256 % 256 : ℕ) : ℚ),
        some ((hexVal l % 256 : ℕ) : ℚ), some 1⟩ := by
  have hne : l ≠ [] := by
    intro he
    rw [he] at hl
    simp at hl
  have hparse := jsParseInt16_of_hex l hne hall
  have hbound : hexVal l < 16777216 := by
    have hb := parseDigitsAux_hex_lt l 0
    rw [hl] at hb
    simpa [hexVal] using hb
  unfold afterNames
  rw [if_neg (by simp)]
  simp only [List.length_cons, hl]
  norm_num
  refine ⟨?_, ?_, ?_⟩
  · rw [hparse, jsShr16_small _ hbound]
    norm_cast
  · rw [hparse, jsAnd255_shr8 _ (by omega)]
    norm_cast
  · rw [hparse, jsAnd255_toInt32 _ (by omega)]
    norm_cast

theorem afterNames_hex8 (l : List Char) (hl : l.length = 8)
    (hall : ∀ c ∈ l, (hexDigitVal c).isSome) :
    afterNames ('#' :: l) =
      some ⟨some ((hexVal l / 16777216 % 256 : ℕ) : ℚ),
        some ((hexVal l / 65536 % 256 : ℕ) : ℚ),
        some ((hexVal l / 256 % 256 : ℕ) : ℚ),
        some (round3 ((hexVal l % 256 : ℕ) / 255))⟩ := by
  have hne : l ≠ [] := by
    intro he
    rw [he] at hl
    simp at hl
  have hparse := jsParseInt16_of_hex l hne hall
  have hbound : hexVal l < 4294967296 := by
    have hb := parseDigitsAux_hex_lt l 0
    rw [hl] at hb
    simpa [hexVal] using hb
  unfold afterNames
  rw [if_neg (by simp)]
  simp only [List.length_cons, hl]
  norm_num
  refine ⟨?_, ?_, ?_, ?_⟩
  · rw [hparse, jsAnd255_shr24 _ hbound]
    norm_cast
  · rw [hparse, jsAnd255_shr16 _ hbound]
    norm_cast
  · rw [hparse, jsAnd255_shr8 _ hbound]
    norm_cast
  · rw [hparse, jsAnd255_toInt32 _ hbound]
    unfold round3
    congr 1
    push_cast
    ring_nf
    norm_num
    congr 1

/-- Claim C5 (counterexample): the input `"#zzz"` is not one of the
forms `#rgb`/`#rgba`/`#rrggbb`/`#rrggbbaa` (its characters are not
hexadecimal digits), yet hex parsing accepts it: `parseInt` returns
`NaN`, the bitwise channel extraction coerces `NaN` to 0, and the result
is the color black with alpha 1 — so "accepts exactly" those forms is
false of the code. -/
theorem c5_counterexample :
    stringInputToObject "#zzz" = some ⟨some 0, some 0, some 0, some 1⟩ := by
  with_unfolding_all decide

/-- Claim C5 (amended): the hex path accepts the length SHAPES rather
than the exact digit-checked forms.  Total lengths 4 (`#rgb`),
5 (`#rgba`), 7 (`#rrggbb`) and 9 (`#rrggbbaa`) are accepted and the
in-between lengths 6 and 8 rejected, but the digits themselves are never
validated: a non-hex character makes `parseInt` return `NaN`, whose
bitwise coercion yields 0 channels (see the counterexample,
`"#zzz"` ↦ black).  For well-formed hexadecimal digits the claimed
decoding holds universally: a 6-digit tail decodes big-endian with
alpha 1; an 8-digit tail decodes its low byte as alpha scaled by 255 and
rounded to 3 decimal places; and the 3/4-digit shorthands parse exactly
as their digit-doubled expansions.  In particular
`#43C403 ↦ (67, 196, 3, 1)`, `#43C40399` has alpha `0.6`,
`#F3A ↦ (255, 51, 170, 1)`, `#F3A9 ↦ (255, 51, 170, 0.6)`. -/
theorem c5_hex_parsing :
    (∀ s : String,
        ((jsToLower (jsTrim s)).data.head? = some '#') →
        ((jsToLower (jsTrim s)).data.length = 6 ∨ (jsToLower (jsTrim s)).data.length = 8) →
        stringInputToObject s = none) ∧
    (∀ l : List Char, l.length = 6 → (∀ c ∈ l, (hexDigitVal c).isSome) →
        afterNames ('#' :: l) =
          some ⟨some ((hexVal l / 65536 : ℕ) : ℚ), some ((hexVal l / 256 % 256 : ℕ) : ℚ),
            some ((hexVal l % 256 : ℕ) : ℚ), some 1⟩) ∧
    (∀ l : List Char, l.length = 8 → (∀ c ∈ l, (hexDigitVal c).isSome) →
        afterNames ('#' :: l) =
          some ⟨some ((hexVal l / 16777216 % 256 : ℕ) : ℚ),
            some ((hexVal l / 65536 % 256 : ℕ) : ℚ),
            some ((hexVal l / 256 % 256 : ℕ) : ℚ),
            some (round3 ((hexVal l % 256 : ℕ) / 255))⟩) ∧
    (∀ c1 c2 c3 : Char,
        afterNames ['#', c1, c2, c3] = afterNames ['#', c1, c1, c2, c2, c3, c3]) ∧
    (∀ c1 c2 c3 c4 : Char,
        afterNames ['#', c1, c2, c3, c4] =
          afterNames ['#', c1, c1, c2, c2, c3, c3, c4, c4]) ∧
    webcolorOfString "#43C403" = some ⟨some 67, some 196, some 3, some 1⟩ ∧
    (webcolorOfString "#43C40399").map QColor.a = some (some (3 / 5)) ∧
    webcolorOfString "#F3A" = some ⟨some 255, some 51, some 170, some 1⟩ ∧
    webcolorOfString "#F3A9" = some ⟨some 255, some 51, some 170, some (3 / 5)⟩ := by
  refine ⟨?_, afterNames_hex6, afterNames_hex8, expand_shorthand3, expand_shorthand4,
    by with_unfolding_all decide, by with_unfolding_all decide,
    by with_unfolding_all decide, by with_unfolding_all decide⟩
  intro s hh hlen
  simp only [stringInputToObject]
  set t := jsToLower (jsTrim s)
  have hlk := lookup_none_of_head_hash t hh
  have htr : t ≠ "transparent" := by
    intro he
    rw [he] at hh
    exact (by decide : ¬("transparent".data.head? = some '#')) hh
  simp only [stringCore, hlk, if_neg htr]
  unfold afterNames
  have hc : ¬(t.data.head? ≠ some 'r' ∧ t.data.head? ≠ some '#') := by
    intro hc
    exact hc.2 hh
  rw [if_neg hc]
  rcases hlen with h6 | h8
  · rw [if_neg (by omega), if_pos (Or.inr (Or.inl h6))]
  · rw [if_neg (by omega), if_pos (Or.inl h8)]

/-- Witness for C5: the length-6 hex-shaped input `"#abcde"` is rejected,
by the main theorem. -/
theorem c5_witness : stringInputToObject "#abcde" = none :=
  (c5_hex_parsing).1 "#abcde" (by with_unfolding_all decide)
    (by with_unfolding_all decide)

set_option maxRecDepth 10000 in
/-- Claim C6 (confirmed): for every entry of the named-color table, any
input that normalises (trim + lowercase) to that name parses successfully
and renders under the hex format as the canonical 6-digit hex string
(3-digit table entries expanded by doubling each digit; the alpha digits
are omitted because alpha is 1). -/
theorem c6_names_roundtrip : ∀ p ∈ namesList, ∀ s : String,
    jsToLower (jsTrim s) = p.1 →
    (webcolorOfString s).map (fun c => c.toString "hex") = some ("#" ++ expand6 p.2) := by
  have hall : ∀ q ∈ namesList,
      ((stringCore q.1).map (fun o => QColor.toString ⟨o.r, o.g, o.b, o.a⟩ "hex")) =
        some ("#" ++ expand6 q.2) := by with_unfolding_all decide
  intro p hp s hs
  have hpar : stringInputToObject s = stringCore p.1 := by
    simp only [stringInputToObject, hs]
  simp only [webcolorOfString, hpar, Option.map_map]
  simpa [Function.comp] using hall p hp

/-- Witness for C6: the round-trip theorem applied to the table entry
for black and the concrete (uppercased, padded) input `" BLACK "`. -/
theorem c6_witness :
    (webcolorOfString " BLACK ").map (fun c => c.toString "hex") =
      some ("#" ++ expand6 "000") :=
  c6_names_roundtrip ("black", "000") (by with_unfolding_all decide) " BLACK "
    (by with_unfolding_all decide)

/-- Claim C8 (counterexample): alphas `1` and `0.9996` round identically
to three decimal places, yet the two records are not `equals`-equal: the
first renders in the `rgb(...)` form (alpha omitted because `a === 1`)
while the second renders as `rgba(...,1)`, so the claimed equality across
the `a == 1` boundary fails. -/
theorem c8_counterexample :
    QColor.equals ⟨some 0, some 0, some 0, some 1⟩
        ⟨some 0, some 0, some 0, some (2499 / 2500)⟩ = false ∧
    jsRound ((1 : ℚ) * 1000) = jsRound ((2499 / 2500 : ℚ) * 1000) := by
  with_unfolding_all decide

/-- Claim C8 (amended): `equals` holds iff the default-format `toString`
outputs are character-for-character equal; two records with the same
`r, g, b` and alphas that round identically to 3 decimal places are equal
provided both alphas differ from 1 (or both equal 1) — but not across the
`a == 1` boundary, where the output switches between the `rgb` and `rgba`
forms (see the counterexample). -/
theorem c8_equals_canonical :
    (∀ c0 c1 : QColor, (c0.equals c1 = true) ↔ c0.toString = c1.toString) ∧
    (∀ r g b : JSNum, ∀ a0 a1 : ℚ, a0 ≠ 1 → a1 ≠ 1 →
      jsRound (a0 * 1000) = jsRound (a1 * 1000) →
      QColor.equals ⟨r, g, b, some a0⟩ ⟨r, g, b, some a1⟩ = true) := by
  constructor
  · intro c0 c1
    simp [QColor.equals]
  · intro r g b a0 a1 h0 h1 hr
    have e0 : ((some a0 : JSNum) == some 1) = false := by
      rw [beq_eq_false_iff_ne]
      simpa using h0
    have e1 : ((some a1 : JSNum) == some 1) = false := by
      rw [beq_eq_false_iff_ne]
      simpa using h1
    simp [QColor.equals, QColor.toString, e0, e1, renderAlphaThousandths, hr]

/-- Witness for C8: two records with alphas `0.5` and `0.50025`, both
different from 1 and rounding identically, are equal, by the main
theorem. -/
theorem c8_witness :
    QColor.equals ⟨some 0, some 0, some 0, some (1 / 2)⟩
      ⟨some 0, some 0, some 0, some (2001 / 4000)⟩ = true :=
  (c8_equals_canonical).2 (some 0) (some 0) (some 0) (1 / 2) (2001 / 4000)
    (by norm_num) (by norm_num) (by with_unfolding_all decide)

/-- Claim C4 (confirmed): `isBlack` holds iff all three channels equal
255 and `isWhite` iff all three equal 0 (the literal, conventionally
inverted channel tests of the source), and `isDark` holds iff the
brightness `0.299·r + 0.587·g + 0.114·b` is strictly below 128. -/
theorem c4_predicates : ∀ c : webcolor,
    (c.isBlack ↔ (c.r = 255 ∧ c.g = 255 ∧ c.b = 255)) ∧
    (c.isWhite ↔ (c.r = 0 ∧ c.g = 0 ∧ c.b = 0)) ∧
    (c.isDark ↔ 0.299 * c.r + 0.587 * c.g + 0.114 * c.b < 128) ∧
    c.getBrightness = 0.299 * c.r + 0.587 * c.g + 0.114 * c.b := by
  intro c
  have hb : c.getBrightness = 0.299 * c.r + 0.587 * c.g + 0.114 * c.b := by
    unfold webcolor.getBrightness
    ring
  refine ⟨Iff.rfl, Iff.rfl, ?_, hb⟩
  unfold webcolor.isDark
  rw [hb]

/-- Claim C9 (confirmed): `withAlpha(a)` first divides `a` by 100 when it
lies in `(1, 100]`, returns a copy of the receiver (same `r`, `g`, `b`)
with the resulting alpha exactly when that result lies in `[0, 1]`, and
otherwise returns the typed null result — it never throws, and the
receiver itself is unchanged (the embedding is pure). -/
theorem c9_withAlpha : ∀ (c : webcolor) (a : ℝ),
    c.withAlpha a =
      if 0 ≤ scaleAlpha a ∧ scaleAlpha a ≤ 1 then
        some ⟨c.r, c.g, c.b, scaleAlpha a⟩
      else none := by
  intro c a
  rfl

/-! Helper lemmas for the real-number layer. -/

theorem srgbTransfer_nonneg (x : ℝ) (hx : 0 ≤ x) : 0 ≤ srgbTransfer x := by
  unfold srgbTransfer
  split_ifs with h
  · positivity
  · apply Real.rpow_nonneg
    apply div_nonneg _ (by norm_num)
    linarith

theorem srgbTransfer_le_one (x : ℝ) (hx : x ≤ 1) : srgbTransfer x ≤ 1 := by
  unfold srgbTransfer
  split_ifs with h
  · rw [div_le_one (by norm_num)]
    linarith
  · apply Real.rpow_le_one
    · apply div_nonneg _ (by norm_num)
      linarith
    · rw [div_le_one (by norm_num)]
      linarith
    · norm_num

theorem luminance_nonneg (c : webcolor) (h0 : 0 ≤ c.r) (h2 : 0 ≤ c.g)
    (h4 : 0 ≤ c.b) : 0 ≤ c.getLuminance := by
  have hr := srgbTransfer_nonneg (c.r / 255) (by positivity)
  have hg := srgbTransfer_nonneg (c.g / 255) (by positivity)
  have hb := srgbTransfer_nonneg (c.b / 255) (by positivity)
  unfold webcolor.getLuminance
  linarith

theorem getLuminance_mem (c : webcolor) (h0 : 0 ≤ c.r) (h1 : c.r ≤ 255)
    (h2 : 0 ≤ c.g) (h3 : c.g ≤ 255) (h4 : 0 ≤ c.b) (h5 : c.b ≤ 255) :
    0 ≤ c.getLuminance ∧ c.getLuminance ≤ 1 := by
  have hr0 := srgbTransfer_nonneg (c.r / 255) (by positivity)
  have hg0 := srgbTransfer_nonneg (c.g / 255) (by positivity)
  have hb0 := srgbTransfer_nonneg (c.b / 255) (by positivity)
  have hr1 := srgbTransfer_le_one (c.r / 255) (by rw [div_le_one (by norm_num)]; linarith)
  have hg1 := srgbTransfer_le_one (c.g / 255) (by rw [div_le_one (by norm_num)]; linarith)
  have hb1 := srgbTransfer_le_one (c.b / 255) (by rw [div_le_one (by norm_num)]; linarith)
  unfold webcolor.getLuminance
  constructor <;> linarith

/-- Claim C7 (counterexample): for the (out-of-range, but constructible)
record with `r = -823650/1063` and `g = b = 0` the relative luminance is
exactly `-0.05`, both contrast-ratio denominators vanish, and
`contrastRatio(a, a)` is not 1 — the JavaScript source computes `NaN`
there, the idealised real semantics `0 / 0 = 0`; the claimed reflexivity
for all colors therefore fails. -/
theorem c7_counterexample :
    webcolor.contrastRatio ⟨-823650 / 1063, 0, 0, 1⟩ ⟨-823650 / 1063, 0, 0, 1⟩ ≠ 1 := by
  have hl : webcolor.getLuminance ⟨-823650 / 1063, 0, 0, 1⟩ = -0.05 := by
    unfold webcolor.getLuminance srgbTransfer
    norm_num
  unfold webcolor.contrastRatio
  rw [hl]
  norm_num

/-- Claim C7 (amended): `contrastRatio` equals
`(max(L0, L1) + 0.05) / (min(L0, L1) + 0.05)` over the two relative
luminances and ignores alpha on both sides; it is symmetric for all
colors; and the reflexivity `contrastRatio(a, a) = 1` holds for every
color with nonnegative channels (for pathological negative channels the
luminance can reach exactly `-0.05`, where the formula degenerates — see
the counterexample). -/
theorem c7_contrast_formula : ∀ c0 c1 : webcolor,
    (c0.contrastRatio c1 =
      (max c0.getLuminance c1.getLuminance + 0.05) /
        (min c0.getLuminance c1.getLuminance + 0.05)) ∧
    (c0.contrastRatio c1 =
      (webcolor.mk c0.r c0.g c0.b 1).contrastRatio ⟨c1.r, c1.g, c1.b, 1⟩) ∧
    c0.contrastRatio c1 = c1.contrastRatio c0 ∧
    (0 ≤ c0.r → 0 ≤ c0.g → 0 ≤ c0.b → c0.contrastRatio c0 = 1) := by
  intro c0 c1
  refine ⟨rfl, rfl, ?_, ?_⟩
  · unfold webcolor.contrastRatio
    rw [max_comm, min_comm]
  · intro h0 h2 h4
    have hl := luminance_nonneg c0 h0 h2 h4
    unfold webcolor.contrastRatio
    rw [max_self, min_self]
    apply div_self
    linarith

/-- Witness for C7: the reflexivity part applied to the concrete color
black. -/
theorem c7_witness : webcolor.contrastRatio hexBlack hexBlack = 1 :=
  (c7_contrast_formula hexBlack hexBlack).2.2.2 (by norm_num [hexBlack])
    (by norm_num [hexBlack]) (by norm_num [hexBlack])

/-- Claim C2 (amended): in the with-target loop, when the candidate's
luminance `tl` is strictly below the base's `l` the step LIGHTENS, unless
the base's contrast against pure black already exceeds `minRatio`, in
which case it darkens further; symmetrically, when `tl > l` it darkens
unless the base's contrast against pure white exceeds `minRatio`, in
which case it lightens; when `tl == l` it lightens iff the base
`isDark()`.  (The claim as stated swaps the two "unless" branches of the
policy — see the counterexample.) -/
theorem c2_direction_policy : ∀ (base t : webcolor) (cmin : ℝ),
    shadeDirection base t cmin =
      if t.getLuminance < base.getLuminance then
        (if base.contrastRatio hexBlack > cmin then -1 else 1)
      else if base.getLuminance < t.getLuminance then
        (if base.contrastRatio hexWhite > cmin then 1 else -1)
      else
        (if base.isDark then 1 else -1) := by
  intro base t cmin
  unfold shadeDirection
  rcases lt_trichotomy t.getLuminance base.getLuminance with h | h | h
  · simp only [if_neg (ne_of_lt h), if_pos h]
  · simp only [if_pos h, h, lt_irrefl, if_neg (lt_irrefl base.getLuminance), if_false, if_true]
  · simp only [if_neg (ne_of_gt h), if_neg (not_lt.mpr (le_of_lt h)), if_pos h]

/-- Claim C2 (counterexample): for the base color `(10, 10, 10)`
(luminance `10/3294.6 ≈ 0.003`), the darker candidate pure black, and
`minRatio = 1`, the base's contrast against pure black is `≈ 1.06 > 1`
and the code darkens further (`sd = -1`), whereas the claim as stated
says that in this situation the step must switch to lightening
(`sd = 1`). -/
theorem c2_counterexample :
    shadeDirection ⟨10, 10, 10, 1⟩ ⟨0, 0, 0, 1⟩ 1 = -1 ∧
    claimedShadeDirection ⟨10, 10, 10, 1⟩ ⟨0, 0, 0, 1⟩ 1 = 1 := by
  have hbk : webcolor.getLuminance hexBlack = 0 := by
    unfold hexBlack webcolor.getLuminance srgbTransfer
    norm_num
  have hcand : webcolor.getLuminance ⟨0, 0, 0, 1⟩ = 0 := by
    unfold webcolor.getLuminance srgbTransfer
    norm_num
  have hg : webcolor.getLuminance ⟨10, 10, 10, 1⟩ = 10 / 3294.6 := by
    unfold webcolor.getLuminance srgbTransfer
    norm_num
  have hlt : webcolor.getLuminance ⟨0, 0, 0, 1⟩ <
      webcolor.getLuminance ⟨10, 10, 10, 1⟩ := by
    rw [hcand, hg]
    norm_num
  have hcr : webcolor.contrastRatio ⟨10, 10, 10, 1⟩ hexBlack > 1 := by
    unfold webcolor.contrastRatio
    rw [hg, hbk, max_eq_left (by norm_num), min_eq_right (by norm_num)]
    norm_num
  constructor
  · unfold shadeDirection
    rw [if_neg (ne_of_lt hlt), if_pos hlt, if_pos hcr]
  · unfold claimedShadeDirection
    rw [if_neg (ne_of_lt hlt), if_pos hlt, if_pos hcr]

theorem blend_linear_mem (P p' x t : ℝ) (hP : 0 ≤ P) (hp : 0 ≤ p')
    (hsum : P + p' = 1) (hx0 : 0 ≤ x) (hx : x ≤ 255) (ht0 : 0 ≤ t) (ht : t ≤ 255) :
    0 ≤ P * x + p' * t ∧ P * x + p' * t ≤ 255 := by
  constructor
  · positivity
  · nlinarith

theorem blend_sqrt_mem (P p' x t : ℝ) (hP : 0 ≤ P) (hp : 0 ≤ p')
    (hsum : P + p' = 1) (hx0 : 0 ≤ x) (hx : x ≤ 255) (ht0 : 0 ≤ t) (ht : t ≤ 255) :
    0 ≤ Real.sqrt (P * x ^ 2 + p' * t ^ 2) ∧ Real.sqrt (P * x ^ 2 + p' * t ^ 2) ≤ 255 := by
  refine ⟨Real.sqrt_nonneg _, ?_⟩
  have hx2 : x ^ 2 ≤ 65025 := by nlinarith
  have ht2 : t ^ 2 ≤ 65025 := by nlinarith
  have harg : P * x ^ 2 + p' * t ^ 2 ≤ 65025 := by
    have u1 := mul_le_mul_of_nonneg_left hx2 hP
    have u2 := mul_le_mul_of_nonneg_left ht2 hp
    linarith
  calc Real.sqrt (P * x ^ 2 + p' * t ^ 2) ≤ Real.sqrt 65025 := Real.sqrt_le_sqrt harg
    _ = 255 := by
        rw [show (65025 : ℝ) = 255 ^ 2 by norm_num,
          Real.sqrt_sq (by norm_num : (0 : ℝ) ≤ 255)]

/-- Claim C10 (confirmed): for every receiver and (optional) blend color
with channels in `[0, 255]` and alpha in `[0, 1]`, and every
`p ∈ [-1, 1]`, `shadeBlend(p, blend, linear)` succeeds and returns a
color whose channels again lie in `[0, 255]` and whose alpha lies in
`[0, 1]`, in both the linear and the default square-root blend modes. -/
theorem c10_shadeBlend_range : ∀ (c : webcolor) (c1 : Option webcolor) (p : ℝ) (l : Bool),
    inRange c → (∀ t, c1 = some t → inRange t) → -1 ≤ p → p ≤ 1 →
    ∃ res, c.shadeBlend p c1 l = some res ∧ inRange res := by
  intro c c1 p l hc hc1 hm1 hp1
  obtain ⟨hcr0, hcr1, hcg0, hcg1, hcb0, hcb1, hca0, hca1⟩ := hc
  have hcond : ¬(p < -1 ∨ p > 1) := by
    push_neg
    exact ⟨by linarith, by linarith⟩
  obtain ⟨t, htd, htr0, htr1, htg0, htg1, htb0, htb1, hta0, hta1⟩ :
      ∃ t, c1.getD (if p < 0 then (⟨0, 0, 0, 1⟩ : webcolor) else ⟨255, 255, 255, 1⟩) = t ∧
        0 ≤ t.r ∧ t.r ≤ 255 ∧ 0 ≤ t.g ∧ t.g ≤ 255 ∧ 0 ≤ t.b ∧ t.b ≤ 255 ∧
        0 ≤ t.a ∧ t.a ≤ 1 := by
    cases c1 with
    | some t0 =>
      obtain ⟨u1, u2, u3, u4, u5, u6, u7, u8⟩ := hc1 t0 rfl
      exact ⟨t0, rfl, u1, u2, u3, u4, u5, u6, u7, u8⟩
    | none =>
      by_cases hneg : p < 0
      · exact ⟨_, rfl, by simp only [if_pos hneg]; norm_num⟩
      · exact ⟨_, rfl, by simp only [if_neg hneg]; norm_num⟩
  have hpd : (if p < 0 then p * -1 else p) = |p| := by
    by_cases hneg : p < 0
    · rw [if_pos hneg, abs_of_neg hneg]
      ring
    · rw [if_neg hneg, abs_of_nonneg (le_of_not_lt hneg)]
  have hp20 : 0 ≤ |p| := abs_nonneg p
  have hp21 : |p| ≤ 1 := abs_le.mpr ⟨hm1, hp1⟩
  have hsum : (1 - |p|) + |p| = 1 := by ring
  have hP0 : 0 ≤ 1 - |p| := by linarith
  have haOr : c.a ≥ 0 ∨ t.a ≥ 0 := Or.inl hca0
  have haN : ¬ c.a < 0 := not_lt.mpr hca0
  have htaN : ¬ t.a < 0 := not_lt.mpr hta0
  have hamem : 0 ≤ c.a * (1 - |p|) + t.a * |p| ∧ c.a * (1 - |p|) + t.a * |p| ≤ 1 := by
    constructor
    · positivity
    · nlinarith
  cases l with
  | true =>
    have heq : c.shadeBlend p c1 true =
        some ⟨(1 - |p|) * c.r + |p| * t.r, (1 - |p|) * c.g + |p| * t.g,
          (1 - |p|) * c.b + |p| * t.b, c.a * (1 - |p|) + t.a * |p|⟩ := by
      simp only [webcolor.shadeBlend]
      rw [if_neg hcond, htd, hpd, if_pos haOr, if_neg haN, if_neg htaN]
      simp
    have h1 := blend_linear_mem (1 - |p|) |p| c.r t.r hP0 hp20 hsum hcr0 hcr1 htr0 htr1
    have h2 := blend_linear_mem (1 - |p|) |p| c.g t.g hP0 hp20 hsum hcg0 hcg1 htg0 htg1
    have h3 := blend_linear_mem (1 - |p|) |p| c.b t.b hP0 hp20 hsum hcb0 hcb1 htb0 htb1
    exact ⟨_, heq, h1.1, h1.2, h2.1, h2.2, h3.1, h3.2, hamem.1, hamem.2⟩
  | false =>
    have heq : c.shadeBlend p c1 false =
        some ⟨Real.sqrt ((1 - |p|) * c.r ^ 2 + |p| * t.r ^ 2),
          Real.sqrt ((1 - |p|) * c.g ^ 2 + |p| * t.g ^ 2),
          Real.sqrt ((1 - |p|) * c.b ^ 2 + |p| * t.b ^ 2),
          c.a * (1 - |p|) + t.a * |p|⟩ := by
      simp only [webcolor.shadeBlend]
      rw [if_neg hcond, htd, hpd, if_pos haOr, if_neg haN, if_neg htaN]
      simp
    have h1 := blend_sqrt_mem (1 - |p|) |p| c.r t.r hP0 hp20 hsum hcr0 hcr1 htr0 htr1
    have h2 := blend_sqrt_mem (1 - |p|) |p| c.g t.g hP0 hp20 hsum hcg0 hcg1 htg0 htg1
    have h3 := blend_sqrt_mem (1 - |p|) |p| c.b t.b hP0 hp20 hsum hcb0 hcb1 htb0 htb1
    exact ⟨_, heq, h1.1, h1.2, h2.1, h2.2, h3.1, h3.2, hamem.1, hamem.2⟩

/-- Witness for C10: the range theorem applied to the receiver black, the
blend color white, `p = 1/2`, linear mode. -/
theorem c10_witness :
    ∃ res, webcolor.shadeBlend ⟨0, 0, 0, 1⟩ (1 / 2) (some ⟨255, 255, 255, 1⟩) true =
      some res ∧ inRange res := by
  apply c10_shadeBlend_range
  · norm_num [inRange]
  · intro t ht
    injection ht with h
    rw [← h]
    norm_num [inRange]
  · norm_num
  · norm_num

/-- Unfolding equation of the loop body for positive fuel. -/
theorem contrastingColorLoop_succ (base : webcolor) (cmin : ℝ) (n : ℕ) (t : webcolor) :
    contrastingColorLoop base cmin (n + 1) t =
      if base.contrastRatio t < cmin then
        if ((t.shadeBlend (0.2 * shadeDirection base t cmin) none false).getD t).isBlack ∨
            ((t.shadeBlend (0.2 * shadeDirection base t cmin) none false).getD t).isWhite then
          some ((t.shadeBlend (0.2 * shadeDirection base t cmin) none false).getD t)
        else
          contrastingColorLoop base cmin n
            ((t.shadeBlend (0.2 * shadeDirection base t cmin) none false).getD t)
      else some t := rfl

/-- The shade direction is always one of the two unit steps. -/
theorem shadeDirection_pm (base t : webcolor) (cmin : ℝ) :
    shadeDirection base t cmin = 1 ∨ shadeDirection base t cmin = -1 := by
  unfold shadeDirection
  split_ifs <;> simp

/-- Candidate invariant of the nontermination argument: every channel
strictly between the endpoints 0 and 255. -/
def strictIn (c : webcolor) : Prop :=
  (0 < c.r ∧ c.r < 255) ∧ (0 < c.g ∧ c.g < 255) ∧ (0 < c.b ∧ c.b < 255)

theorem step_strictIn (t : webcolor) (h : strictIn t) (sd : ℝ)
    (hd : sd = 1 ∨ sd = -1) :
    strictIn ((t.shadeBlend (0.2 * sd) none false).getD t) := by
  obtain ⟨⟨hr0, hr1⟩, ⟨hg0, hg1⟩, ⟨hb0, hb1⟩⟩ := h
  rcases hd with rfl | rfl
  · have hcond : ¬((0.2 : ℝ) * 1 < -1 ∨ (0.2 : ℝ) * 1 > 1) := by norm_num
    have hneg : ¬((0.2 : ℝ) * 1 < 0) := by norm_num
    simp only [webcolor.shadeBlend]
    rw [if_neg hcond, if_neg hneg, if_neg hneg]
    simp only [Option.getD_none, Option.getD_some, if_false, Bool.false_eq_true]
    refine ⟨⟨?_, ?_⟩, ⟨?_, ?_⟩, ⟨?_, ?_⟩⟩
    all_goals simp only [strictIn]
    · exact Real.sqrt_pos.mpr (by nlinarith)
    · exact (Real.sqrt_lt' (by norm_num)).mpr (by nlinarith)
    · exact Real.sqrt_pos.mpr (by nlinarith)
    · exact (Real.sqrt_lt' (by norm_num)).mpr (by nlinarith)
    · exact Real.sqrt_pos.mpr (by nlinarith)
    · exact (Real.sqrt_lt' (by norm_num)).mpr (by nlinarith)
  · have hcond : ¬((0.2 : ℝ) * -1 < -1 ∨ (0.2 : ℝ) * -1 > 1) := by norm_num
    have hneg : ((0.2 : ℝ) * -1 < 0) := by norm_num
    simp only [webcolor.shadeBlend]
    rw [if_neg hcond, if_pos hneg, if_pos hneg]
    simp only [Option.getD_none, Option.getD_some, if_false, Bool.false_eq_true]
    refine ⟨⟨?_, ?_⟩, ⟨?_, ?_⟩, ⟨?_, ?_⟩⟩
    · exact Real.sqrt_pos.mpr (by nlinarith)
    · exact (Real.sqrt_lt' (by norm_num)).mpr (by nlinarith)
    · exact Real.sqrt_pos.mpr (by nlinarith)
    · exact (Real.sqrt_lt' (by norm_num)).mpr (by nlinarith)
    · exact Real.sqrt_pos.mpr (by nlinarith)
    · exact (Real.sqrt_lt' (by norm_num)).mpr (by nlinarith)

theorem loop_gray_none : ∀ (fuel : ℕ) (t : webcolor), strictIn t →
    contrastingColorLoop ⟨128, 128, 128, 1⟩ 22 fuel t = none := by
  intro fuel
  induction fuel with
  | zero => intro t ht; rfl
  | succ n ih =>
    intro t ht
    obtain ⟨⟨hr0, hr1⟩, ⟨hg0, hg1⟩, ⟨hb0, hb1⟩⟩ := ht
    have hbase := getLuminance_mem ⟨128, 128, 128, 1⟩ (by norm_num) (by norm_num)
      (by norm_num) (by norm_num) (by norm_num) (by norm_num)
    have hcand := getLuminance_mem t hr0.le hr1.le hg0.le hg1.le hb0.le hb1.le
    have hratio : webcolor.contrastRatio ⟨128, 128, 128, 1⟩ t < 22 := by
      unfold webcolor.contrastRatio
      have hmax := max_le hbase.2 hcand.2
      have hmin := le_min hbase.1 hcand.1
      rw [div_lt_iff₀ (by linarith)]
      nlinarith
    have ht' := step_strictIn t ⟨⟨hr0, hr1⟩, ⟨hg0, hg1⟩, ⟨hb0, hb1⟩⟩ _
      (shadeDirection_pm ⟨128, 128, 128, 1⟩ t 22)
    have hnb : ¬ (((t.shadeBlend (0.2 * shadeDirection ⟨128, 128, 128, 1⟩ t 22) none
          false).getD t).isBlack ∨
        ((t.shadeBlend (0.2 * shadeDirection ⟨128, 128, 128, 1⟩ t 22) none
          false).getD t).isWhite) := by
      rintro (⟨hx, -, -⟩ | ⟨hx, -, -⟩)
      · exact absurd hx (ne_of_lt ht'.1.2)
      · exact absurd hx (ne_of_gt ht'.1.1)
    rw [contrastingColorLoop_succ, if_pos hratio, if_neg hnb]
    exact ih _ ht'

/-- Claim C3 (counterexample): with base `(128, 128, 128)`, target
`(64, 64, 64)` and `minRatio = 22`, the loop can never exit: every
candidate keeps all channels strictly inside `(0, 255)` (the geometric
shading steps approach but never reach the endpoints in exact
arithmetic), so the candidate is never exactly pure black or pure white,
while the contrast ratio of two in-range colors is at most 21 < 22; the
claimed unconditional termination fails. -/
theorem c3_counterexample :
    ¬ contrastingColorLoopTerminates ⟨128, 128, 128, 1⟩ 22 ⟨64, 64, 64, 1⟩ := by
  rintro ⟨fuel, result, h⟩
  rw [loop_gray_none fuel ⟨64, 64, 64, 1⟩ (by norm_num [strictIn])] at h
  exact Option.noConfusion h

/-- Claim C3 (amended): whenever the `contrastingColor` search loop
terminates (for any base, target, `minRatio` and fuel), the returned
color either has contrast ratio at least `minRatio` against the base or
is exactly pure black or pure white; under exact real arithmetic,
however, termination itself can fail (see the counterexample) — the
source relies on floating-point rounding eventually reaching the
endpoints exactly. -/
theorem c3_partial_correctness : ∀ (base : webcolor) (cmin : ℝ) (fuel : ℕ)
    (t result : webcolor),
    contrastingColorLoop base cmin fuel t = some result →
    cmin ≤ base.contrastRatio result ∨ result.isBlack ∨ result.isWhite := by
  intro base cmin fuel
  induction fuel with
  | zero =>
    intro t result h
    exact Option.noConfusion h
  | succ n ih =>
    intro t result h
    rw [contrastingColorLoop_succ] at h
    by_cases hr : base.contrastRatio t < cmin
    · rw [if_pos hr] at h
      by_cases hbw : (((t.shadeBlend (0.2 * shadeDirection base t cmin) none
            false).getD t).isBlack ∨
          ((t.shadeBlend (0.2 * shadeDirection base t cmin) none
            false).getD t).isWhite)
      · rw [if_pos hbw] at h
        injection h with h
        right
        rw [← h]
        exact hbw
      · rw [if_neg hbw] at h
        exact ih _ _ h
    · rw [if_neg hr] at h
      injection h with h
      left
      rw [← h]
      exact le_of_not_lt hr

/-- Witness for C3: the partial-correctness theorem applied to the run
with base black, target black and `minRatio = 1`, which exits on the
first check because `contrastRatio(black, black) = 1`. -/
theorem c3_witness :
    1 ≤ webcolor.contrastRatio hexBlack hexBlack ∨ hexBlack.isBlack ∨ hexBlack.isWhite := by
  apply c3_partial_correctness hexBlack 1 1 hexBlack hexBlack
  rw [contrastingColorLoop_succ]
  rw [if_neg]
  have hl : webcolor.getLuminance hexBlack = 0 := by
    unfold hexBlack webcolor.getLuminance srgbTransfer
    norm_num
  unfold webcolor.contrastRatio
  rw [hl, max_self, min_self]
  norm_num
